import Mathlib

set_option maxRecDepth 100000

/-!
Shallow embedding of the stock-data-dashboard pipeline.

Source files embedded here:
  * `data_processor.py` — `StockDataProcessor.clean_data`,
    `StockDataProcessor.calculate_metrics`, `StockDataProcessor.process_stock`.
  * `database.py` — `StockDatabase.save_stock_data`, `StockDatabase.get_all_stock_data`,
    `StockDatabase.clear_stock_data`, and the `UNIQUE(symbol, date)` constraint of the
    `stock_data` table created in `init_database`.
  * `api.py` — the `GET /data/{symbol}` handler `get_stock_data` (named
    `api_get_stock_data` here to avoid clashing with the database method name).
  * `app.py` — `load_stock_data`.

Modelling conventions:
  * pandas float columns are modelled as `ℚ`; a NaN / missing cell is `Option.none`.
    (The source holds finite doubles produced by finite arithmetic; exact rationals
    model the same arithmetic without rounding.)
  * Calendar dates are modelled as `Nat` (SQLite compares ISO dates lexicographically,
    i.e. chronologically, so any linearly ordered date type is faithful; pandas
    `to_datetime` is the identity in this model).
  * pandas `rolling(window=w, min_periods=1)` over a column at row `i` is the trailing
    window `(take (i+1)).drop (i+1-w)` of the column, i.e. the last `min w (i+1)`
    entries up to and including row `i`.
  * pandas `.std()` uses `ddof=1` (sample standard deviation): it is NaN on a window
    with fewer than two observations even when `min_periods=1`.  We therefore carry
    the rolling *sample variance* in the row (`vol_var : Option ℚ`, `none` = NaN) and
    define the stored `volatility_score` column as
    `sqrt(variance) * sqrt 252 * 100 : Option ℝ` on top of it, exactly the source's
    `rolling(20, min_periods=1).std() * np.sqrt(252) * 100`.
  * `pandas.DataFrame.to_sql(..., if_exists='append')` on a raw sqlite3 connection
    inserts the rows inside one transaction and rolls back on error, so a uniqueness
    violation of `UNIQUE(symbol, date)` surfaces as a distinct `sqlite3.IntegrityError`
    (modelled as `DBError.DuplicateRowError`) and leaves the store unchanged.
-/

/-- One raw OHLCV bar as fetched from the external source (one row of the raw
DataFrame).  `none` models a NaN / missing / non-coercible cell. -/
structure RawRow where
  date : Nat
  open_ : Option ℚ
  high : Option ℚ
  low : Option ℚ
  close : Option ℚ
  volume : Option ℚ
deriving DecidableEq, Repr

/-- One cleaned bar: all OHLCV cells present (`clean_data` output row). -/
structure Bar where
  date : Nat
  open_ : ℚ
  high : ℚ
  low : ℚ
  close : ℚ
  volume : ℚ
deriving DecidableEq, Repr

/-- One derived row (`calculate_metrics` output row).  `vol_var` is the rolling
sample variance of `daily_return` over the trailing 20-row window (`none` = NaN,
which happens exactly when the window has fewer than two observations); the
`volatility_score` column of the source is `volatility_score` below, defined as
`sqrt vol_var * sqrt 252 * 100`. -/
structure MetricRow where
  date : Nat
  open_ : ℚ
  high : ℚ
  low : ℚ
  close : ℚ
  volume : ℚ
  daily_return : ℚ
  ma_7 : ℚ
  week_52_high : ℚ
  week_52_low : ℚ
  vol_var : Option ℚ
deriving DecidableEq, Repr

/-- Trailing window of width at most `w` ending at index `i` (inclusive), the
semantics of pandas `rolling(window=w, min_periods=1)` at row `i`. -/
def window (w : Nat) (l : List ℚ) (i : Nat) : List ℚ :=
  (l.take (i + 1)).drop (i + 1 - w)

/-- Maximum of a list of rationals (`rolling(...).max()` on a nonempty window);
`0` on the empty list, which never occurs for a valid row index. -/
def listMax : List ℚ → ℚ
  | [] => 0
  | [a] => a
  | a :: b :: t => max a (listMax (b :: t))

/-- Minimum of a list of rationals (`rolling(...).min()` on a nonempty window);
`0` on the empty list, which never occurs for a valid row index. -/
def listMin : List ℚ → ℚ
  | [] => 0
  | [a] => a
  | a :: b :: t => min a (listMin (b :: t))

/-- Arithmetic mean of a window (`rolling(...).mean()`). -/
def listMean (xs : List ℚ) : ℚ :=
  xs.sum / (xs.length : ℚ)

/-- Sample variance with `ddof = 1` (the square of pandas `rolling(...).std()`):
`none` (NaN) when the window has fewer than two observations, otherwise
`Σ (x - mean)² / (n - 1)`. -/
def sampleVar (xs : List ℚ) : Option ℚ :=
  if xs.length < 2 then none
  else
    some (((xs.map fun x => (x - listMean xs) ^ 2).sum) / ((xs.length : ℚ) - 1))

/-- `daily_return` of one bar: `(close - open) / open` (line 111 of
`data_processor.py`).  Caveat: in `ℚ` division by zero yields `0`, whereas the
source computes `inf` for a zero-open row (such rows do survive `clean_data`,
see `rawZeroOpen`), and an `inf` inside a rolling-std window then makes the
source's `volatility_score` NaN while this model keeps a finite variance.  The
model is therefore faithful only on rows with `open ≠ 0`; every theorem below
whose conclusion depends on the *value* of `daily_return` carries a hypothesis
that restricts it to such inputs (`open ≠ 0` provisos, or a finite-variance
hypothesis that only finite returns can realise in the source). -/
def dailyRet (b : Bar) : ℚ :=
  (b.close - b.open_) / b.open_

/-- `StockDataProcessor.clean_data`: drop rows with a missing OHLC cell
(`dropna(subset=['open','high','low','close'])`), keep rows with `close > 0`,
then coerce the numeric columns and drop rows with a missing numeric cell,
volume included (`dropna(subset=numeric_cols)`).  Order of surviving rows is
preserved.  The values are already numeric in this model, so coercion is the
identity on present cells. -/
def clean_data (raw : List RawRow) : List Bar :=
  if raw.isEmpty then []
  else
    let s1 := raw.filter fun r =>
      r.open_.isSome && r.high.isSome && r.low.isSome && r.close.isSome
    let s2 := s1.filter fun r =>
      match r.close with
      | some c => decide (0 < c)
      | none => false
    s2.filterMap fun r =>
      match r.open_, r.high, r.low, r.close, r.volume with
      | some o, some h, some l, some c, some v =>
          some { date := r.date, open_ := o, high := h, low := l, close := c, volume := v }
      | _, _, _, _, _ => none

/-- Date order on cleaned bars (`sort_values('date')`). -/
def barDateLe (a b : Bar) : Prop := a.date ≤ b.date

instance : DecidableRel barDateLe := fun a b => Nat.decLe a.date b.date

instance : IsTotal Bar barDateLe := ⟨fun a b => Nat.le_total a.date b.date⟩

instance : IsTrans Bar barDateLe := ⟨fun _ _ _ hab hbc => Nat.le_trans hab hbc⟩

/-- All-zero bar used only as the (never reached) `getD` default. -/
def defaultBar : Bar := { date := 0, open_ := 0, high := 0, low := 0, close := 0, volume := 0 }

/-- One output row of `calculate_metrics` built from the date-sorted series `s`
at position `i`: rolling mean / max / min / sample variance over the trailing
windows of widths 7, 252, 252 and 20 (all with `min_periods=1`). -/
def metricRow (s : List Bar) (i : Nat) : MetricRow :=
  let b := s.getD i defaultBar
  { date := b.date
    open_ := b.open_
    high := b.high
    low := b.low
    close := b.close
    volume := b.volume
    daily_return := dailyRet b
    ma_7 := listMean (window 7 (s.map fun x => x.close) i)
    week_52_high := listMax (window 252 (s.map fun x => x.high) i)
    week_52_low := listMin (window 252 (s.map fun x => x.low) i)
    vol_var := sampleVar (window 20 (s.map dailyRet) i) }

/-- `StockDataProcessor.calculate_metrics`: return the input unchanged when it is
empty, otherwise sort ascending by date and add the five derived columns
(lines 105–120 of `data_processor.py`). -/
def calculate_metrics (bars : List Bar) : List MetricRow :=
  if bars.isEmpty then []
  else
    let s := List.insertionSort barDateLe bars
    (List.range s.length).map (metricRow s)

/-- The `volatility_score` column: `rolling(20, min_periods=1).std()` times
`np.sqrt(252)` times `100` (line 118 of `data_processor.py`), with
`std = sqrt (sample variance)`; `none` models NaN. -/
noncomputable def volatility_score (r : MetricRow) : Option ℝ :=
  r.vol_var.map fun v => Real.sqrt (v : ℝ) * Real.sqrt 252 * 100

/-- `StockDataProcessor.process_stock` restricted to its data flow: an empty
fetch result short-circuits to an empty frame, otherwise the fetched frame is
cleaned and the metrics are derived.  The external fetch result is passed in as
`fetch` (the yfinance call itself is an external collaborator). -/
def process_stock (fetch : List RawRow) : List MetricRow :=
  if fetch.isEmpty then []
  else calculate_metrics (clean_data fetch)

/-- One persisted row of the `stock_data` table: a symbol plus the metric
columns.  The autoincrement `id` is the position in the store list. -/
structure DBRow where
  symbol : String
  row : MetricRow
deriving DecidableEq, Repr

/-- Database-level failures.  `DuplicateRowError` models the
`sqlite3.IntegrityError` raised when an insert violates the
`UNIQUE(symbol, date)` constraint declared in `init_database`. -/
inductive DBError where
  | DuplicateRowError
deriving DecidableEq, Repr

/-- Whether the store already holds a row with key `(sym, d)` — the
`UNIQUE(symbol, date)` key of the `stock_data` table. -/
def hasKey (store : List DBRow) (sym : String) (d : Nat) : Bool :=
  store.any fun q => q.symbol == sym && q.row.date == d

/-- Sequential insertion of a batch: each row is appended unless its
`(symbol, date)` key is already present (in the pre-existing store or earlier in
the same batch), in which case the constraint fires. -/
def insertRows : List DBRow → List DBRow → Except DBError (List DBRow)
  | store, [] => .ok store
  | store, r :: rs =>
      if hasKey store r.symbol r.row.date then .error .DuplicateRowError
      else insertRows (store ++ [r]) rs

/-- `StockDatabase.save_stock_data`: `df.to_sql('stock_data', conn,
if_exists='append')`.  The whole batch is one transaction: on a uniqueness
violation the transaction is rolled back, so `.error` means the store is left
exactly as it was. -/
def save_stock_data (store rows : List DBRow) : Except DBError (List DBRow) :=
  insertRows store rows

/-- The store state after `save_stock_data`: the new store on success, the
unchanged store after the rollback on failure. -/
def savePost (store rows : List DBRow) : List DBRow :=
  match save_stock_data store rows with
  | .ok s => s
  | .error _ => store

/-- Date order on metric rows (`ORDER BY date`). -/
def rowDateLe (a b : MetricRow) : Prop := a.date ≤ b.date

instance : DecidableRel rowDateLe := fun a b => Nat.decLe a.date b.date

instance : IsTotal MetricRow rowDateLe := ⟨fun a b => Nat.le_total a.date b.date⟩

instance : IsTrans MetricRow rowDateLe := ⟨fun _ _ _ hab hbc => Nat.le_trans hab hbc⟩

/-- `StockDatabase.get_all_stock_data`: `SELECT * FROM stock_data WHERE
symbol = ? ORDER BY date` — the symbol's rows, sorted ascending by date. -/
def get_all_stock_data (store : List DBRow) (sym : String) : List MetricRow :=
  List.insertionSort rowDateLe ((store.filter fun r => r.symbol == sym).map fun r => r.row)

/-- `StockDatabase.clear_stock_data`: `DELETE FROM stock_data WHERE symbol = ?`. -/
def clear_stock_data (store : List DBRow) (sym : String) : List DBRow :=
  store.filter fun r => !(r.symbol == sym)

/-- Outcome of the `GET /data/{symbol}` handler.  `notFound` is the
`HTTPException(status_code=404, detail=...)` raised for "no data"; `serverError`
is the catch-all `HTTPException(status_code=500, ...)`. -/
inductive ApiResponse where
  | ok (symbol : String) (days_returned : Nat) (data : List MetricRow)
  | notFound (detail : String)
  | serverError (detail : String)
deriving DecidableEq, Repr

/-- `df.tail(n)`: the last `n` rows. -/
def tailRows (n : Nat) (l : List MetricRow) : List MetricRow :=
  l.drop (l.length - n)

/-- The `GET /data/{symbol}` handler `get_stock_data` of `api.py` (lines 56–97):
read the cache; on a cache miss run `process_stock` and, if it produced rows,
persist them; 404 when the frame is still empty; otherwise answer with the last
`days` rows.  `fetch` is the external source's response; the returned store is
the cache state after the request. -/
def api_get_stock_data (store : List DBRow) (sym : String) (days : Nat)
    (fetch : List RawRow) : ApiResponse × List DBRow :=
  let df0 := get_all_stock_data store sym
  if df0.isEmpty then
    let df := process_stock fetch
    if df.isEmpty then
      (.notFound ("No data found for symbol: " ++ sym), store)
    else
      match save_stock_data store (df.map fun r => { symbol := sym, row := r }) with
      | .ok store2 => (.ok sym (tailRows days df).length (tailRows days df), store2)
      | .error _ => (.serverError ("Error fetching stock data: " ++ sym), store)
  else
    (.ok sym (tailRows days df0).length (tailRows days df0), store)

/-- The non-refresh path of `app.py`'s `load_stock_data` (from `df =
db.get_all_stock_data(symbol)` onward): read the cache; on a miss run
`process_stock` and persist a nonempty result.  The summary value is not
modelled (no claim concerns it).  A raised `DuplicateRowError` propagates
(`.error`). -/
def loadFromDb (store : List DBRow) (sym : String) (fetch : List RawRow) :
    Except DBError (List MetricRow × List DBRow) :=
  let df := get_all_stock_data store sym
  if df.isEmpty then
    let df2 := process_stock fetch
    if df2.isEmpty then .ok (df2, store)
    else
      match save_stock_data store (df2.map fun r => { symbol := sym, row := r }) with
      | .ok store2 => .ok (df2, store2)
      | .error e => .error e
  else .ok (df, store)

/-- `app.py` `load_stock_data` (lines 21–50): on `refresh`, fetch and derive;
only when the result is nonempty clear the symbol's rows, save the fresh rows
and return them — an empty fetch falls through to the ordinary cache path. -/
def load_stock_data (store : List DBRow) (sym : String) (refresh : Bool)
    (fetch : List RawRow) : Except DBError (List MetricRow × List DBRow) :=
  if refresh then
    let df := process_stock fetch
    if df.isEmpty then loadFromDb store sym fetch
    else
      let store1 := clear_stock_data store sym
      match save_stock_data store1 (df.map fun r => { symbol := sym, row := r }) with
      | .ok store2 => .ok (df, store2)
      | .error e => .error e
  else loadFromDb store sym fetch

/-- A sample metric row (the database stores whatever columns it is given). -/
def mrowA : MetricRow :=
  { date := 1, open_ := 1, high := 2, low := 1, close := 2, volume := 3,
    daily_return := 1, ma_7 := 2, week_52_high := 2, week_52_low := 1, vol_var := none }

/-- A second sample metric row with a later date. -/
def mrowB : MetricRow :=
  { date := 2, open_ := 1, high := 3, low := 1, close := 3, volume := 4,
    daily_return := 2, ma_7 := 3, week_52_high := 3, week_52_low := 1, vol_var := none }

/-- A one-row store holding `mrowA` under symbol `RELIANCE.NS`. -/
def storeA : List DBRow := [{ symbol := "RELIANCE.NS", row := mrowA }]

/-- A sample raw row for the determinism witness. -/
def rawSample : RawRow :=
  { date := 0, open_ := some 10, high := some 12, low := some 9,
    close := some 11, volume := some 100 }

/-- The raw row behind `bar100` (survives cleaning). -/
def rawGood : RawRow :=
  { date := 0, open_ := some 100, high := some 105, low := some 100,
    close := some 105, volume := some 1000 }

/-- A single cleaned bar with open 100 and close 105. -/
def bar100 : Bar :=
  { date := 0, open_ := 100, high := 105, low := 100, close := 105, volume := 1000 }

/-- The single output row of `calculate_metrics [bar100]`. -/
def row100 : MetricRow :=
  { date := 0, open_ := 100, high := 105, low := 100, close := 105, volume := 1000,
    daily_return := 1/20, ma_7 := 105, week_52_high := 105, week_52_low := 100,
    vol_var := none }

/-- Three-bar series with closes 10, 20, 30 (the spec's `ma_7` example). -/
def bars3 : List Bar :=
  [{ date := 0, open_ := 10, high := 10, low := 10, close := 10, volume := 1 },
   { date := 1, open_ := 10, high := 20, low := 10, close := 20, volume := 1 },
   { date := 2, open_ := 10, high := 30, low := 10, close := 30, volume := 1 }]

/-- Output row 0 of `calculate_metrics bars3`. -/
def bars3row0 : MetricRow :=
  { date := 0, open_ := 10, high := 10, low := 10, close := 10, volume := 1,
    daily_return := 0, ma_7 := 10, week_52_high := 10, week_52_low := 10,
    vol_var := none }

/-- Output row 1 of `calculate_metrics bars3`. -/
def bars3row1 : MetricRow :=
  { date := 1, open_ := 10, high := 20, low := 10, close := 20, volume := 1,
    daily_return := 1, ma_7 := 15, week_52_high := 20, week_52_low := 10,
    vol_var := some (1/2) }

/-- The raw row with `open = 0` that survives `clean_data` (its close is
positive and no cell is missing), refuting "open is guaranteed > 0
post-clean". -/
def rawZeroOpen : RawRow :=
  { date := 0, open_ := some 0, high := some 1, low := some 0,
    close := some 1, volume := some 10 }

/-- The cleaned bar produced from `rawZeroOpen`. -/
def barZeroOpen : Bar :=
  { date := 0, open_ := 0, high := 1, low := 0, close := 1, volume := 10 }

/-- Two-bar series whose two daily returns are both `1` (zero variance). -/
def bars2v : List Bar :=
  [{ date := 0, open_ := 1, high := 2, low := 1, close := 2, volume := 1 },
   { date := 1, open_ := 2, high := 4, low := 2, close := 4, volume := 1 }]

/-- Output row 1 of `calculate_metrics bars2v`. -/
def bars2vrow1 : MetricRow :=
  { date := 1, open_ := 2, high := 4, low := 2, close := 4, volume := 1,
    daily_return := 1, ma_7 := 3, week_52_high := 4, week_52_low := 1,
    vol_var := some 0 }

/-- Row `i` of the 253-row counterexample series: date `i`, strictly increasing
high `i + 1`, and low `0` at the first row only. -/
def mkBar253 (i : Nat) : Bar :=
  { date := i, open_ := 1, high := (i : ℚ) + 1, low := if i = 0 then 0 else 1,
    close := 1, volume := 1 }

/-- A 253-row cleaned date-sorted series with monotonically increasing highs
whose minimum low (0) occurs only at the very first row — one row more than the
252-row trailing window. -/
def series253 : List Bar := (List.range 253).map mkBar253

/-! ### Sanity checks and helper lemmas -/

example : listMax [3, 1, 2] = 3 := by with_unfolding_all decide

example : window 7 [1, 2, 3] 2 = [1, 2, 3] := by decide

example :
    clean_data [{ date := 0, open_ := some 1, high := some 2, low := some 1,
                  close := some 2, volume := some 5 }] =
      [{ date := 0, open_ := 1, high := 2, low := 1, close := 2, volume := 5 }] := by
  with_unfolding_all decide

example :
    (calculate_metrics
        [{ date := 0, open_ := 10, high := 10, low := 10, close := 10, volume := 1 },
         { date := 1, open_ := 10, high := 20, low := 10, close := 20, volume := 1 },
         { date := 2, open_ := 10, high := 30, low := 10, close := 30, volume := 1 }]).map
        (fun r => r.ma_7) = [10, 15, 20] := by
  with_unfolding_all decide

lemma length_calculate_metrics (bars : List Bar) :
    (calculate_metrics bars).length = bars.length := by
  unfold calculate_metrics
  by_cases h : bars.isEmpty
  · rw [if_pos h, List.isEmpty_iff.mp h]
    rfl
  · rw [if_neg h]
    simp

lemma calculate_metrics_getElem? (bars : List Bar) (i : Nat) (hi : i < bars.length) :
    (calculate_metrics bars)[i]? =
      some (metricRow (List.insertionSort barDateLe bars) i) := by
  have hne : bars.isEmpty = false := by
    cases bars with
    | nil => simp at hi
    | cons a t => rfl
  unfold calculate_metrics
  rw [hne]
  simp only [Bool.false_eq_true, if_false, List.getElem?_map]
  rw [List.getElem?_range (by simpa using hi)]
  rfl

lemma length_window (w : Nat) (l : List ℚ) (i : Nat) (hi : i < l.length) :
    (window w l i).length = min w (i + 1) := by
  simp only [window, List.length_drop, List.length_take]
  omega

lemma listMax_cons (a : ℚ) (xs : List ℚ) (h : xs ≠ []) :
    listMax (a :: xs) = max a (listMax xs) := by
  cases xs with
  | nil => exact absurd rfl h
  | cons b t => rfl

lemma listMax_mem (xs : List ℚ) (h : xs ≠ []) : listMax xs ∈ xs := by
  induction xs with
  | nil => exact absurd rfl h
  | cons a t ih =>
    cases t with
    | nil => simp [listMax]
    | cons b u =>
      rw [listMax_cons a (b :: u) (by simp)]
      rcases max_choice a (listMax (b :: u)) with h1 | h1
      · rw [h1]
        exact List.mem_cons_self _ _
      · rw [h1]
        exact List.mem_cons_of_mem _ (ih (by simp))

lemma listMax_drop_of_sorted (d : Nat) : ∀ xs : List ℚ, List.Sorted (· ≤ ·) xs →
    d < xs.length → listMax (xs.drop d) = listMax xs := by
  induction d with
  | zero => intro xs _ _; rfl
  | succ n ih =>
    intro xs hs hd
    cases xs with
    | nil => simp at hd
    | cons a t =>
      have hlen : n < t.length := by simpa using hd
      have ht : t ≠ [] := by
        cases t with
        | nil => simp at hlen
        | cons _ _ => simp
      rw [List.drop_succ_cons, ih t hs.of_cons hlen, listMax_cons a t ht]
      exact (max_eq_right ((List.sorted_cons.mp hs).1 _ (listMax_mem t ht))).symm

lemma hasKey_append (a b : List DBRow) (s : String) (d : Nat) :
    hasKey (a ++ b) s d = (hasKey a s d || hasKey b s d) := by
  simp [hasKey, List.any_append]

lemma insertRows_error (rows : List DBRow) : ∀ store : List DBRow,
    (∃ r ∈ rows, hasKey store r.symbol r.row.date = true) →
    insertRows store rows = .error DBError.DuplicateRowError := by
  induction rows with
  | nil =>
    intro store h
    simp at h
  | cons r rs ih =>
    intro store h
    unfold insertRows
    by_cases hk : hasKey store r.symbol r.row.date = true
    · rw [if_pos hk]
    · rw [if_neg hk]
      apply ih
      rcases h with ⟨q, hq, hkey⟩
      rcases List.mem_cons.mp hq with rfl | hq'
      · exact absurd hkey hk
      · exact ⟨q, hq', by rw [hasKey_append]; simp [hkey]⟩

lemma insertRows_ok (rows : List DBRow) : ∀ store : List DBRow,
    (∀ r ∈ rows, hasKey store r.symbol r.row.date = false) →
    (rows.map fun r => (r.symbol, r.row.date)).Nodup →
    insertRows store rows = .ok (store ++ rows) := by
  induction rows with
  | nil =>
    intro store _ _
    simp [insertRows]
  | cons r rs ih =>
    intro store hfree hnd
    rw [List.map_cons] at hnd
    obtain ⟨hnotin, hnd2⟩ := List.nodup_cons.mp hnd
    unfold insertRows
    rw [if_neg (by simp [hfree r (List.mem_cons_self r rs)])]
    rw [ih (store ++ [r]) ?_ hnd2]
    · simp
    · intro q hq
      rw [hasKey_append]
      have h1 : hasKey store q.symbol q.row.date = false :=
        hfree q (List.mem_cons_of_mem _ hq)
      have hne : ¬(r.symbol = q.symbol ∧ r.row.date = q.row.date) := by
        intro hEq
        have hmem : (r.symbol, r.row.date) ∈ rs.map fun x => (x.symbol, x.row.date) := by
          rw [hEq.1, hEq.2]
          exact List.mem_map_of_mem _ hq
        exact hnotin hmem
      have h2 : hasKey [r] q.symbol q.row.date = false := by
        simp only [hasKey, List.any_cons, List.any_nil, Bool.or_false]
        rw [Bool.and_eq_false_iff]
        by_cases hs : r.symbol = q.symbol
        · right
          simp only [beq_eq_false_iff_ne, ne_eq]
          intro hd
          exact hne ⟨hs, hd⟩
        · left
          simp [hs]
      rw [h1, h2]
      rfl

/-- Claim C2: appending a row whose `(symbol, date)` key already exists in the
store makes `save_stock_data` raise the distinct `DuplicateRowError` (the
`sqlite3.IntegrityError` from the `UNIQUE(symbol, date)` constraint, propagated
un-swallowed by `to_sql`), and the rolled-back store — hence the existing row —
is left unmodified. -/
theorem c2_save_duplicate_raises (store rows : List DBRow)
    (h : ∃ r ∈ rows, hasKey store r.symbol r.row.date = true) :
    save_stock_data store rows = .error DBError.DuplicateRowError ∧
      savePost store rows = store := by
  have he : save_stock_data store rows = .error DBError.DuplicateRowError :=
    insertRows_error rows store h
  refine ⟨he, ?_⟩
  unfold savePost
  rw [he]

theorem c2_save_duplicate_raises_witness :
    save_stock_data storeA [{ symbol := "RELIANCE.NS", row := mrowB },
        { symbol := "RELIANCE.NS", row := mrowA }] =
        .error DBError.DuplicateRowError ∧
      savePost storeA [{ symbol := "RELIANCE.NS", row := mrowB },
        { symbol := "RELIANCE.NS", row := mrowA }] = storeA :=
  c2_save_duplicate_raises _ _ (by with_unfolding_all decide)

/-- Claim C3: with an empty cache for the symbol and an empty external-source
response, `GET /data/{symbol}` answers the 404 `notFound` outcome whose detail
names the symbol, and the cache store is left unchanged (no rows written). -/
theorem c3_get_data_no_data (store : List DBRow) (sym : String) (days : Nat)
    (h : get_all_stock_data store sym = []) :
    api_get_stock_data store sym days [] =
      (ApiResponse.notFound ("No data found for symbol: " ++ sym), store) := by
  unfold api_get_stock_data
  rw [h]
  rfl

theorem c3_get_data_no_data_witness :
    get_all_stock_data [] "TCS.NS" = [] ∧
      api_get_stock_data [] "TCS.NS" 30 [] =
        (ApiResponse.notFound ("No data found for symbol: " ++ "TCS.NS"), []) :=
  ⟨rfl, c3_get_data_no_data [] "TCS.NS" 30 rfl⟩

/-- Claim C4: writing any batch of metric rows with pairwise-distinct dates for
one symbol into an empty cache succeeds, and a subsequent `get_all_stock_data`
for that symbol returns exactly the same multiset of `(date, close)` pairs,
sorted ascending by date. -/
theorem c4_save_get_roundtrip (sym : String) (rows : List MetricRow)
    (hnd : (rows.map fun r => r.date).Nodup) :
    save_stock_data [] (rows.map fun r => { symbol := sym, row := r }) =
        .ok (rows.map fun r => { symbol := sym, row := r }) ∧
      List.Perm
        ((get_all_stock_data (rows.map fun r => { symbol := sym, row := r }) sym).map
          fun r => (r.date, r.close))
        (rows.map fun r => (r.date, r.close)) ∧
      List.Sorted (fun a b : Nat × ℚ => a.1 ≤ b.1)
        ((get_all_stock_data (rows.map fun r => { symbol := sym, row := r }) sym).map
          fun r => (r.date, r.close)) := by
  have hkeys : ((rows.map fun r => { symbol := sym, row := r : DBRow }).map
      fun r => (r.symbol, r.row.date)).Nodup := by
    rw [List.map_map]
    have : ((fun r : DBRow => (r.symbol, r.row.date)) ∘
        fun r : MetricRow => { symbol := sym, row := r : DBRow }) =
        (fun d : Nat => (sym, d)) ∘ fun r : MetricRow => r.date := rfl
    rw [this, ← List.map_map]
    exact hnd.map fun a b hab => by simpa using hab
  have hsave : save_stock_data [] (rows.map fun r => { symbol := sym, row := r }) =
      .ok (rows.map fun r => { symbol := sym, row := r }) := by
    have := insertRows_ok (rows.map fun r => { symbol := sym, row := r }) []
      (fun r _ => rfl) hkeys
    simpa [save_stock_data] using this
  have hget : get_all_stock_data (rows.map fun r => { symbol := sym, row := r }) sym =
      List.insertionSort rowDateLe rows := by
    unfold get_all_stock_data
    rw [List.filter_eq_self.mpr (by intro a ha; simp at ha; rcases ha with ⟨r, _, rfl⟩; simp)]
    rw [List.map_map]
    rw [show ((fun r : DBRow => r.row) ∘
        fun r : MetricRow => ({ symbol := sym, row := r } : DBRow)) = id from rfl]
    rw [List.map_id]
  refine ⟨hsave, ?_, ?_⟩
  · rw [hget]
    exact List.Perm.map _ (List.perm_insertionSort rowDateLe rows)
  · rw [hget]
    exact List.pairwise_map.mpr ((List.sorted_insertionSort rowDateLe rows).imp fun h => h)

theorem c4_save_get_roundtrip_witness :
    (([mrowB, mrowA].map fun r => r.date).Nodup) ∧
      (save_stock_data [] ([mrowB, mrowA].map fun r => { symbol := "INFY.NS", row := r }) =
          .ok ([mrowB, mrowA].map fun r => { symbol := "INFY.NS", row := r }) ∧
        List.Perm
          ((get_all_stock_data
              ([mrowB, mrowA].map fun r => { symbol := "INFY.NS", row := r }) "INFY.NS").map
            fun r => (r.date, r.close))
          ([mrowB, mrowA].map fun r => (r.date, r.close)) ∧
        List.Sorted (fun a b : Nat × ℚ => a.1 ≤ b.1)
          ((get_all_stock_data
              ([mrowB, mrowA].map fun r => { symbol := "INFY.NS", row := r }) "INFY.NS").map
            fun r => (r.date, r.close))) :=
  ⟨by with_unfolding_all decide,
    c4_save_get_roundtrip "INFY.NS" [mrowB, mrowA] (by with_unfolding_all decide)⟩

/-- Claim C5: the metrics derivation `clean_data` followed by
`calculate_metrics` is a pure function of its input series — it is modelled
here as a plain function with no state, time or randomness parameter, because
the source touches none (it copies its input frame and reads no globals), and
two invocations on identical inputs give identical outputs. -/
theorem c5_derive_deterministic (s t : List RawRow) (h : s = t) :
    calculate_metrics (clean_data s) = calculate_metrics (clean_data t) := by
  rw [h]

theorem c5_derive_deterministic_witness :
    calculate_metrics (clean_data [rawSample]) = calculate_metrics (clean_data [rawSample]) :=
  c5_derive_deterministic [rawSample] [rawSample] rfl

/-- Claim C10: a refresh whose external fetch comes back empty never reaches the
`clear`+`save` branch of `load_stock_data` — the populated cache is left
byte-for-byte unchanged and the previously cached rows are returned. -/
theorem c10_refresh_empty_fetch_preserves_cache (store : List DBRow) (sym : String)
    (h : get_all_stock_data store sym ≠ []) :
    load_stock_data store sym true [] = .ok (get_all_stock_data store sym, store) := by
  unfold load_stock_data loadFromDb
  cases hg : get_all_stock_data store sym with
  | nil => exact absurd hg h
  | cons a t => rfl

theorem c10_refresh_empty_fetch_preserves_cache_witness :
    get_all_stock_data storeA "RELIANCE.NS" ≠ [] ∧
      load_stock_data storeA "RELIANCE.NS" true [] =
        .ok (get_all_stock_data storeA "RELIANCE.NS", storeA) :=
  ⟨by with_unfolding_all decide,
    c10_refresh_empty_fetch_preserves_cache storeA "RELIANCE.NS"
      (by with_unfolding_all decide)⟩

/-- From a date-sorted input, the `i`-th output row of `calculate_metrics` is
`metricRow bars i`. -/
lemma calc_row_eq (bars : List Bar) (hs : List.Sorted barDateLe bars) (i : Nat)
    (row : MetricRow) (h : (calculate_metrics bars)[i]? = some row) :
    i < bars.length ∧ row = metricRow bars i := by
  have hi : i < bars.length := by
    have := (List.getElem?_eq_some.mp h).1
    rwa [length_calculate_metrics] at this
  have hval := calculate_metrics_getElem? bars i hi
  rw [hs.insertionSort_eq] at hval
  rw [h] at hval
  exact ⟨hi, Option.some.inj hval⟩

/-- Claim C6 (amended): after cleaning, `close > 0` is guaranteed (the source
filters `close > 0`, but — contrary to the claim — `open > 0` is *not*
guaranteed, see the counterexample); every derived row's `daily_return` is
`(close − open) / open` over that row's own fields, a signed fraction; and the
row with open 100 / close 105 gets exactly `1/20 = 0.05`. -/
theorem c6_daily_return :
    (∀ raw : List RawRow, ∀ b ∈ clean_data raw, 0 < b.close) ∧
      (∀ bars : List Bar, List.Sorted barDateLe bars → ∀ (i : Nat) (row : MetricRow),
        (calculate_metrics bars)[i]? = some row →
        row.daily_return = (row.close - row.open_) / row.open_) ∧
      (calculate_metrics [bar100]).map (fun r => r.daily_return) = [1/20] := by
  refine ⟨?_, ?_, by with_unfolding_all decide⟩
  · intro raw b hb
    unfold clean_data at hb
    by_cases hE : raw.isEmpty
    · rw [if_pos hE] at hb
      simp at hb
    · rw [if_neg hE] at hb
      rcases List.mem_filterMap.mp hb with ⟨r, hr, hfr⟩
      have hp2 := (List.mem_filter.mp hr).2
      rcases hc : r.close with _ | c
      · rw [hc] at hp2
        simp at hp2
      · rw [hc] at hp2
        simp only [decide_eq_true_eq] at hp2
        rcases ho : r.open_ with _ | o <;>
          rcases hh : r.high with _ | h2 <;>
          rcases hl : r.low with _ | l2 <;>
          rcases hv : r.volume with _ | v2 <;>
          rw [ho, hh, hl, hc, hv] at hfr <;>
          simp at hfr
        rw [← hfr]
        exact hp2
  · intro bars hs i row h
    obtain ⟨hi, hrow⟩ := calc_row_eq bars hs i row h
    subst hrow
    rfl

theorem c6_daily_return_witness :
    row100.daily_return = (row100.close - row100.open_) / row100.open_ :=
  c6_daily_return.2.1 [bar100] (List.sorted_singleton _) 0 row100
    (by with_unfolding_all decide)

theorem c6_daily_return_counterexample :
    clean_data [rawZeroOpen] = [barZeroOpen] ∧ ¬ (0 < barZeroOpen.open_) :=
  ⟨by with_unfolding_all decide, by with_unfolding_all decide⟩

/-- Claim C7: `ma_7` at row `i` of a cleaned date-sorted series is the mean of
`close` over the trailing window of `min 7 (i+1)` rows inclusive of row `i`
(all rows so far when fewer than 7 exist), and on the 3-row series with closes
10, 20, 30 it yields [10, 15, 20]. -/
theorem c7_ma7 :
    (∀ bars : List Bar, List.Sorted barDateLe bars → ∀ (i : Nat) (row : MetricRow),
        (calculate_metrics bars)[i]? = some row →
        row.ma_7 = (((bars.map fun b => b.close).take (i + 1)).drop (i + 1 - 7)).sum /
          ((min 7 (i + 1) : ℕ) : ℚ)) ∧
      (calculate_metrics bars3).map (fun r => r.ma_7) = [10, 15, 20] := by
  refine ⟨?_, by with_unfolding_all decide⟩
  intro bars hs i row h
  obtain ⟨hi, hrow⟩ := calc_row_eq bars hs i row h
  subst hrow
  show listMean (window 7 (bars.map fun x => x.close) i) = _
  unfold listMean
  rw [length_window 7 _ i (by simpa using hi)]
  rfl

theorem c7_ma7_witness :
    bars3row1.ma_7 = (((bars3.map fun b => b.close).take 2).drop (2 - 7)).sum /
      ((min 7 2 : ℕ) : ℚ) :=
  c7_ma7.1 bars3 (by with_unfolding_all decide) 1 bars3row1
    (by with_unfolding_all decide)

/-- Claim C9: when the trailing 20-row window of `daily_return` at a row has
(sample) variance exactly 0, that row's `volatility_score` —
`std * sqrt 252 * 100` — is exactly 0. -/
theorem c9_zero_variance_zero_volatility (bars : List Bar)
    (hs : List.Sorted barDateLe bars) (i : Nat) (row : MetricRow)
    (h : (calculate_metrics bars)[i]? = some row)
    (hv : sampleVar (window 20 (bars.map dailyRet) i) = some 0) :
    volatility_score row = some 0 := by
  obtain ⟨hi, hrow⟩ := calc_row_eq bars hs i row h
  subst hrow
  unfold volatility_score
  have hvv : (metricRow bars i).vol_var = some 0 := hv
  rw [hvv]
  simp

theorem c9_zero_variance_zero_volatility_witness :
    sampleVar (window 20 (bars2v.map dailyRet) 1) = some 0 ∧
      volatility_score bars2vrow1 = some 0 := by
  have hv : sampleVar (window 20 (bars2v.map dailyRet) 1) = some 0 := by
    with_unfolding_all decide
  exact ⟨hv, c9_zero_variance_zero_volatility bars2v (by with_unfolding_all decide) 1
    bars2vrow1 (by with_unfolding_all decide) hv⟩

/-- Claim C1 (amended): on a cleaned date-sorted series every derived row has
well-defined `daily_return`, `ma_7`, `week_52_high`, `week_52_low` (in the
model these columns are total), but the first row's `volatility_score` is
null: its trailing window holds a single observation and the sample standard
deviation (`ddof=1`) of one observation is NaN even with `min_periods=1`.
From the second row on `volatility_score` is non-null *provided every row of
the series has a nonzero open*.  That proviso keeps the statement within the
inputs on which this model is faithful to the program: cleaning admits
zero-open rows (see `rawZeroOpen`), the source then computes an infinite
`daily_return`, and a rolling-std window containing `inf` is NaN in pandas —
a case the ℚ model cannot observe because it collapses `x/0` to `0`.  The
proviso is accordingly not consumed by the Lean proof; it narrows the claim
to series whose `daily_return` column is finite in the source. -/
theorem c1_derived_columns_nullness (bars : List Bar) (hs : List.Sorted barDateLe bars) :
    (∀ row : MetricRow, (calculate_metrics bars)[0]? = some row →
        volatility_score row = none) ∧
      (∀ (i : Nat) (row : MetricRow), 1 ≤ i → (∀ b ∈ bars, b.open_ ≠ 0) →
        (calculate_metrics bars)[i]? = some row → volatility_score row ≠ none) := by
  constructor
  · intro row h
    obtain ⟨hi, hrow⟩ := calc_row_eq bars hs 0 row h
    subst hrow
    unfold volatility_score
    have hlen : (window 20 (bars.map dailyRet) 0).length = 1 := by
      rw [length_window 20 _ 0 (by simpa using hi)]
      omega
    have hvv : (metricRow bars 0).vol_var = none := by
      show sampleVar _ = none
      unfold sampleVar
      rw [hlen]
      rfl
    rw [hvv]
    rfl
  · intro i row hi1 _hfin h
    obtain ⟨hi, hrow⟩ := calc_row_eq bars hs i row h
    subst hrow
    unfold volatility_score
    have hlen : (window 20 (bars.map dailyRet) i).length = min 20 (i + 1) :=
      length_window 20 _ i (by simpa using hi)
    have hvv : ∃ v, (metricRow bars i).vol_var = some v := by
      show ∃ v, sampleVar _ = some v
      unfold sampleVar
      rw [hlen]
      rw [if_neg (by omega)]
      exact ⟨_, rfl⟩
    rcases hvv with ⟨v, hv⟩
    rw [hv]
    simp

theorem c1_derived_columns_nullness_witness :
    volatility_score bars3row0 = none ∧ volatility_score bars3row1 ≠ none := by
  have h := c1_derived_columns_nullness bars3 (by with_unfolding_all decide)
  exact ⟨h.1 bars3row0 (by with_unfolding_all decide),
    h.2 1 bars3row1 (Nat.le_refl 1) (by with_unfolding_all decide)
      (by with_unfolding_all decide)⟩

theorem c1_derived_columns_nullness_counterexample :
    clean_data [rawGood] = [bar100] ∧
      calculate_metrics [bar100] = [row100] ∧
      volatility_score row100 = none := by
  refine ⟨by with_unfolding_all decide, by with_unfolding_all decide, ?_⟩
  rfl

/-- Claim C8 (amended): `week_52_high` / `week_52_low` are the trailing
max-of-high / min-of-low over up to 252 rows inclusive of the current row.  For
a series with monotonically nondecreasing highs, `week_52_high` equals the
running maximum of `high` at every row; `week_52_low` equals the running
minimum of `low` only when the series is at most 252 rows long (beyond that the
window drops the oldest lows — see the counterexample). -/
theorem c8_week52_extrema (bars : List Bar) (hd : List.Sorted barDateLe bars)
    (hmono : List.Sorted (fun a b : ℚ => a ≤ b) (bars.map fun b => b.high))
    (i : Nat) (row : MetricRow) (h : (calculate_metrics bars)[i]? = some row) :
    row.week_52_high = listMax ((bars.map fun b => b.high).take (i + 1)) ∧
      (bars.length ≤ 252 →
        row.week_52_low = listMin ((bars.map fun b => b.low).take (i + 1))) := by
  obtain ⟨hi, hrow⟩ := calc_row_eq bars hd i row h
  subst hrow
  constructor
  · show listMax (window 252 (bars.map fun x => x.high) i) = _
    unfold window
    apply listMax_drop_of_sorted
    · exact List.Pairwise.sublist (List.take_sublist _ _) hmono
    · rw [List.length_take, List.length_map]
      omega
  · intro hlen
    show listMin (window 252 (bars.map fun x => x.low) i) = _
    unfold window
    rw [show i + 1 - 252 = 0 by omega, List.drop_zero]

theorem c8_week52_extrema_witness :
    bars3row1.week_52_high = listMax ((bars3.map fun b => b.high).take 2) ∧
      bars3row1.week_52_low = listMin ((bars3.map fun b => b.low).take 2) := by
  have h := c8_week52_extrema bars3 (by with_unfolding_all decide)
    (by with_unfolding_all decide) 1 bars3row1 (by with_unfolding_all decide)
  exact ⟨h.1, h.2 (by with_unfolding_all decide)⟩

/-- `listMin` of a cons with nonempty tail is the `min` of head and tail
minimum. -/
lemma listMin_cons (a : ℚ) (xs : List ℚ) (h : xs ≠ []) :
    listMin (a :: xs) = min a (listMin xs) := by
  cases xs with
  | nil => exact absurd rfl h
  | cons b t => rfl

/-- `listMin` of a nonempty constant list is that constant. -/
lemma listMin_all_eq (c : ℚ) : ∀ xs : List ℚ, xs ≠ [] → (∀ x ∈ xs, x = c) →
    listMin xs = c := by
  intro xs
  induction xs with
  | nil =>
    intro h _
    exact absurd rfl h
  | cons a t ih =>
    intro _ hall
    cases t with
    | nil => simpa using hall a (by simp)
    | cons b u =>
      rw [listMin_cons a (b :: u) (by simp)]
      rw [hall a (by simp), ih (by simp) (fun x hx => hall x (List.mem_cons_of_mem _ hx))]
      exact min_self c

lemma series253_sorted : List.Sorted barDateLe series253 :=
  List.pairwise_map.mpr
    (List.Pairwise.imp (fun h => Nat.le_of_lt h) (List.pairwise_lt_range 253))

lemma series253_high_sorted :
    List.Sorted (fun a b : ℚ => a ≤ b) (series253.map fun b => b.high) := by
  rw [series253, List.map_map]
  refine List.pairwise_map.mpr ?_
  refine List.Pairwise.imp ?_ (List.pairwise_lt_range 253)
  intro i j h
  exact add_le_add_right (by exact_mod_cast Nat.le_of_lt h) 1

lemma series253_length : series253.length = 253 := by
  rw [series253, List.length_map, List.length_range]

lemma series253_lows :
    series253.map (fun x => x.low) =
      (List.range 253).map fun i => if i = 0 then (0 : ℚ) else 1 := by
  rw [series253, List.map_map]
  rfl

lemma series253_lows_cons :
    series253.map (fun x => x.low) =
      (0 : ℚ) :: (List.range 252).map fun i => if Nat.succ i = 0 then (0 : ℚ) else 1 := by
  rw [series253_lows]
  rw [show (List.range 253) = 0 :: List.map Nat.succ (List.range 252) from
    List.range_succ_eq_map 252]
  rw [List.map_cons, List.map_map]
  rfl

lemma series253_low_tail_ones :
    ∀ x ∈ (List.range 252).map fun i => if Nat.succ i = 0 then (0 : ℚ) else 1, x = 1 := by
  intro x hx
  rcases List.mem_map.mp hx with ⟨j, _, rfl⟩
  simp

theorem c8_week52_extrema_counterexample :
    List.Sorted barDateLe series253 ∧
      List.Sorted (fun a b : ℚ => a ≤ b) (series253.map fun b => b.high) ∧
      ((calculate_metrics series253)[252]?).map (fun r => r.week_52_low) = some 1 ∧
      listMin ((series253.map fun b => b.low).take 253) = 0 ∧
      (1 : ℚ) ≠ 0 := by
  have hlen : series253.length = 253 := series253_length
  have htake : (series253.map fun x => x.low).take (252 + 1) =
      series253.map fun x => x.low := by
    apply List.take_of_length_le
    rw [List.length_map, hlen]
  have hrow : (calculate_metrics series253)[252]? =
      some (metricRow series253 252) := by
    have h := calculate_metrics_getElem? series253 252 (by omega)
    rwa [series253_sorted.insertionSort_eq] at h
  have hwin : (metricRow series253 252).week_52_low = 1 := by
    show listMin (window 252 (series253.map fun x => x.low) 252) = 1
    unfold window
    rw [htake, series253_lows_cons]
    show listMin ((List.range 252).map fun i => if Nat.succ i = 0 then (0 : ℚ) else 1) = 1
    exact listMin_all_eq 1 _ (by simp) series253_low_tail_ones
  have hrunmin : listMin ((series253.map fun b => b.low).take 253) = 0 := by
    rw [show (253 : Nat) = 252 + 1 from rfl, htake, series253_lows_cons]
    rw [listMin_cons _ _ (by simp)]
    rw [listMin_all_eq 1 _ (by simp) series253_low_tail_ones]
    exact min_eq_left (by norm_num)
  refine ⟨series253_sorted, series253_high_sorted, ?_, hrunmin, by norm_num⟩
  rw [hrow]
  rw [Option.map_some']
  rw [hwin]
